import Mathlib

/-!
Verification of the Goldilocks field arithmetic and Poseidon permutation
kernel in src/cuda/def.cuh (aerius-labs/plonky2-gpu).

Machine integers are embedded as `Nat` with explicit `% 2^64` (resp.
`% 2^128`, `% 2^32`) wherever the C code can wrap, and as `Int` for the
signed 128-bit Bezout coefficients of `GoldilocksField::inverse` (signed
overflow is undefined behaviour in C++; every run examined here keeps those
values far below 2^127, so the embedding uses unbounded integers).
Loops whose termination depends on data are embedded with an explicit fuel
parameter; exhausting the fuel models non-termination of the C loop.
-/

namespace Def

/-- The wrap modulus 2^64 of `uint64_t`. -/
def U64 : ℕ := 18446744073709551616

/-- The wrap modulus 2^128 of `unsigned __int128`. -/
def U128 : ℕ := 340282366920938463463374607431768211456

/-- The wrap modulus 2^32 of `uint32_t`. -/
def U32 : ℕ := 4294967296

/-- Embeds `GoldilocksField::ORDER = 0xFFFFFFFF00000001` (def.cuh:174), the field
modulus p = 2^64 - 2^32 + 1. -/
def ORDER : ℕ := 18446744069414584321

/-- Embeds `EPSILON = (1ULL << 32) - 1` (def.cuh:65), i.e. 2^32 - 1 = 2^64 mod p. -/
def EPSILON : ℕ := 4294967295

/-- Embeds `overflowing_add` (def.cuh:56-59): 64-bit wrapping sum plus overflow flag
`UINT64_MAX - b < a`. -/
def overflowingAdd (a b : ℕ) : ℕ × Bool :=
  ((a + b) % U64, decide (U64 ≤ a + b))

/-- Embeds `overflowing_sub` (def.cuh:60-63): 64-bit wrapping difference plus borrow
flag `a < b`. -/
def overflowingSub (a b : ℕ) : ℕ × Bool :=
  ((a + U64 - b) % U64, decide (a < b))

/-- Embeds `GoldilocksField::operator+` (def.cuh:398-416).  The `assert` in the
double-overflow branch compares both operands against ORDER; the branch is
reached only when both exceed ORDER (proved in `gf_add_assert_holds`), so the
abort path is not modelled. -/
def gf_add (a b : ℕ) : ℕ :=
  let s1 := overflowingAdd a b
  let s2 := overflowingAdd s1.1 (if s1.2 then EPSILON else 0)
  if s2.2 then (s2.1 + EPSILON) % U64 else s2.1

/-- Embeds `GoldilocksField::operator-` (binary, def.cuh:417-435); the double-borrow
`assert` is likewise unreachable-by-failure (`gf_sub_assert_holds`). -/
def gf_sub (a b : ℕ) : ℕ :=
  let d1 := overflowingSub a b
  let d2 := overflowingSub d1.1 (if d1.2 then EPSILON else 0)
  if d2.2 then (d2.1 + U64 - EPSILON) % U64 else d2.1

/-- Embeds `GoldilocksField::operator-` (unary, def.cuh:495-498): the two's-complement
bit pattern `-this->data` of a `uint64_t`, i.e. (2^64 - a) mod 2^64. -/
def gf_neg (a : ℕ) : ℕ :=
  (U64 - a) % U64

/-- Embeds `GoldilocksField::operator==` (def.cuh:490-493): raw comparison of the
stored 64-bit values, with no canonicalization. -/
def gf_eq (a b : ℕ) : Bool :=
  decide (b = a)

/-- Embeds `GoldilocksField::from_canonical_u64` (def.cuh:194-196): wraps the value
unchanged. -/
def from_canonical_u64 (n : ℕ) : ℕ := n

/-- Embeds `GoldilocksField::reduce128` (def.cuh:437-458). -/
def reduce128 (xHi xLo : ℕ) : ℕ :=
  let xHiHi := xHi / U32
  let xHiLo := xHi % U32
  let t0 := (xLo + U64 - xHiHi) % U64
  let t0 := if xLo < xHiHi then (t0 + U64 - EPSILON) % U64 else t0
  let t1 := (xHiLo * EPSILON) % U64
  if U64 - 1 - t1 < t0 then ((t1 + t0) % U64 + EPSILON) % U64
  else (t0 + t1) % U64

/-- The 32x32 schoolbook split inside `GoldilocksField::operator*`
(def.cuh:462-477), producing the (high, low) 64-bit halves of the full
128-bit product. -/
def mulSplit (a b : ℕ) : ℕ × ℕ :=
  let aLow := a % U32
  let aHigh := a / U32
  let bLow := b % U32
  let bHigh := b / U32
  let productLow := (aLow * bLow) % U64
  let productMid1 := (aLow * bHigh) % U64
  let productMid2 := (aHigh * bLow) % U64
  let productHigh := (aHigh * bHigh) % U64
  let carry := (productLow / U32 + productMid1 % U32 + productMid2 % U32) % U64
  let high := (productHigh + productMid1 / U32 + productMid2 / U32 + carry / U32) % U64
  let low := ((carry * U32) % U64 + productLow % U32) % U64
  (high, low)

/-- Embeds `GoldilocksField::operator*` (def.cuh:460-479): schoolbook 128-bit product
followed by `reduce128`. -/
def gf_mul (a b : ℕ) : ℕ :=
  reduce128 (mulSplit a b).1 (mulSplit a b).2

/-- Embeds `GoldilocksField::square` (def.cuh:183-185). -/
def gf_square (a : ℕ) : ℕ := gf_mul a a

/-- Embeds `GoldilocksField::from_noncanonical_u128` (def.cuh:204-206):
`reduce128(n >> 64, n & UINT64_MAX)` for a 128-bit n. -/
def from_noncanonical_u128 (n : ℕ) : ℕ :=
  reduce128 (n / U64) (n % U64)

/-- Embeds `GoldilocksField::from_noncanonical_u96` (def.cuh:198-202):
assembles `(n_hi << 64) + n_lo` in 128 bits and reduces. -/
def from_noncanonical_u96 (nLo nHi : ℕ) : ℕ :=
  from_noncanonical_u128 ((nHi * U64 + nLo) % U128)

/-- Embeds `GoldilocksField::multiply_accumulate` (def.cuh:500-504): `*this + x * y`. -/
def multiply_accumulate (acc x y : ℕ) : ℕ :=
  gf_add acc (gf_mul x y)

/-- Embeds `GoldilocksField::add_canonical_u64` (def.cuh:506-510). -/
def add_canonical_u64 (acc rhs : ℕ) : ℕ :=
  gf_add acc (from_canonical_u64 rhs)

end Def

namespace Def

/-- The precomputed `inverse_2_pow_adicity` constant of
`GoldilocksField::inverse_2exp` (def.cuh:365-366): p - (p-1) >> 32. -/
def inv2PowAdicity : ℕ := ORDER - (ORDER - 1) / U32

/-- The `while (e > CHARACTERISTIC_TWO_ADICITY)` loop of
`GoldilocksField::inverse_2exp` (def.cuh:371-374); terminates because `e`
shrinks by 32 each pass. -/
def inv2expLoop (res e : ℕ) : ℕ × ℕ :=
  if h : 32 < e then inv2expLoop (gf_mul res inv2PowAdicity) (e - 32)
  else (res, e)
termination_by e
decreasing_by omega

/-- Embeds `GoldilocksField::inverse_2exp` (def.cuh:341-382); only the live branch of
the constant-true `if` is embedded, with TWO_ADICITY = 32. -/
def inverse_2exp (exp : ℕ) : ℕ :=
  if 32 < exp then
    let re := inv2expLoop inv2PowAdicity (exp - 32)
    gf_mul re.1 (ORDER - (ORDER - 1) / 2 ^ re.2)
  else
    ORDER - (ORDER - 1) / 2 ^ exp

/-- The `trailing_zeros` lambda in `GoldilocksField::inverse`
(def.cuh:221-228): `while ((n & 1) == 0) { n >>= 1; count++; }`.
A fuel of 64 is exact for `uint64_t`: a nonzero argument exits within 63
passes, and a zero argument never exits (modelled as `none`). -/
def tzFuel (fuel n : ℕ) : Option ℕ :=
  if n % 2 = 1 then some 0
  else
    match fuel with
    | 0 => none
    | fuel' + 1 => Option.map (fun t => t + 1) (tzFuel fuel' (n / 2))

/-- The mutable locals of `GoldilocksField::inverse` (def.cuh:208-217):
odd parts `f`, `g` (`u64`) and Bezout coefficients `c`, `d` (`i128`,
embedded as unbounded integers), plus the accumulated shift count `k`. -/
structure InvState where
  f : ℕ
  g : ℕ
  c : ℤ
  d : ℤ
  k : ℕ
deriving DecidableEq

/-- The `safe_iteration` lambda of `GoldilocksField::inverse`
(def.cuh:249-273): conditional swap so `f >= g`, then a subtract step or an
overflow-avoiding `(f >> 2) + (g >> 2) + 1` add step, followed by stripping
the trailing zeros of the new `f` into `k` while shifting `d` up. -/
def safeIteration (s : InvState) : Option InvState :=
  let f := if s.f < s.g then s.g else s.f
  let g := if s.f < s.g then s.f else s.g
  let c := if s.f < s.g then s.d else s.c
  let d := if s.f < s.g then s.c else s.d
  if f % 4 = g % 4 then
    let f1 := (f + U64 - g) % U64
    let c1 := c - d
    match tzFuel 64 f1 with
    | none => none
    | some kk => some ⟨f1 / 2 ^ kk, g, c1, d * 2 ^ kk, s.k + kk⟩
  else
    let f1 := f / 4 + g / 4 + 1
    let c1 := c + d
    match tzFuel 64 f1 with
    | none => none
    | some kk => some ⟨f1 / 2 ^ kk, g, c1, d * 2 ^ (kk + 2), s.k + kk + 2⟩

/-- The `unsafe_iteration` lambda of `GoldilocksField::inverse`
(def.cuh:291-311): same swap and branch selection, with plain wrapping
`f -= g` / `f += g` on `uint64_t`. -/
def unsafeIteration (s : InvState) : Option InvState :=
  let f := if s.f < s.g then s.g else s.f
  let g := if s.f < s.g then s.f else s.g
  let c := if s.f < s.g then s.d else s.c
  let d := if s.f < s.g then s.c else s.d
  let f1 := if f % 4 = g % 4 then (f + U64 - g) % U64 else (f + g) % U64
  let c1 := if f % 4 = g % 4 then c - d else c + d
  match tzFuel 64 f1 with
  | none => none
  | some kk => some ⟨f1 / 2 ^ kk, g, c1, d * 2 ^ kk, s.k + kk⟩

/-- The `while (f != 1) unsafe_iteration(...)` loop of
`GoldilocksField::inverse` (def.cuh:314-316), with explicit fuel. -/
def invLoop (fuel : ℕ) (s : InvState) : Option InvState :=
  if s.f = 1 then some s
  else
    match fuel with
    | 0 => none
    | fuel' + 1 =>
      match unsafeIteration s with
      | none => none
      | some s1 => invLoop fuel' s1

/-- The `while (c < 0) c += ORDER` canonicalization loop of
`GoldilocksField::inverse` (def.cuh:323-325), with explicit fuel. -/
def canonAddFuel (fuel : ℕ) (c : ℤ) : Option ℤ :=
  if c < 0 then
    match fuel with
    | 0 => none
    | fuel' + 1 => canonAddFuel fuel' (c + ORDER)
  else some c

/-- The `while (c >= ORDER) c -= ORDER` canonicalization loop of
`GoldilocksField::inverse` (def.cuh:329-331), with explicit fuel. -/
def canonSubFuel (fuel : ℕ) (c : ℤ) : Option ℤ :=
  if c < (ORDER : ℤ) then some c
  else
    match fuel with
    | 0 => none
    | fuel' + 1 => canonSubFuel fuel' (c - ORDER)

/-- Truncation of an `i128` to `u64` (`u64(c)` at def.cuh:335): the value
modulo 2^64. -/
def toU64 (c : ℤ) : ℕ := (c.emod (U64 : ℤ)).toNat

/-- Outcome of one call to `GoldilocksField::inverse`: a returned field
element, a failure of the active `assert(c == 1)` (def.cuh:283), or fuel
exhaustion (modelling a loop in the C code that never exits). -/
inductive InvResult where
  | ok : ℕ → InvResult
  | assertFail : InvResult
  | noFuel : InvResult
deriving DecidableEq

/-- Embeds `GoldilocksField::inverse` (def.cuh:208-338): strip trailing zeros of
`f = data` (the commented-out `assert(f != 0)` is NOT active, so a zero input
reaches the trailing-zeros loop), early exits via `inverse_2exp`, two safe
iterations, the unsafe-iteration loop, the two canonicalization loops, and
the final `from_canonical_u64(u64(c)) * inverse_2exp(u64(k))`. -/
def inverseFuel (fuel a : ℕ) : InvResult :=
  match tzFuel 64 a with
  | none => InvResult.noFuel
  | some k =>
    let f := a / 2 ^ k
    if f = 1 then InvResult.ok (inverse_2exp k)
    else
      match safeIteration ⟨f, ORDER, 1, 0, k⟩ with
      | none => InvResult.noFuel
      | some s1 =>
        if s1.f = 1 then
          if s1.c = -1 then InvResult.ok (gf_neg (inverse_2exp s1.k))
          else if s1.c = 1 then InvResult.ok (inverse_2exp s1.k)
          else InvResult.assertFail
        else
          match safeIteration s1 with
          | none => InvResult.noFuel
          | some s2 =>
            match invLoop fuel s2 with
            | none => InvResult.noFuel
            | some s3 =>
              match canonAddFuel fuel s3.c with
              | none => InvResult.noFuel
              | some c1 =>
                match canonSubFuel fuel c1 with
                | none => InvResult.noFuel
                | some c2 => InvResult.ok (gf_mul (toU64 c2) (inverse_2exp s3.k))

/-- The Bezout coefficient `c` as the `while (f != 1)` loop of
`GoldilocksField::inverse` exits, i.e. the value the canonicalization loops
at def.cuh:318-331 start from (`none` when the run never reaches them). -/
def inverseLoopExitC (fuel a : ℕ) : Option ℤ :=
  match tzFuel 64 a with
  | none => none
  | some k =>
    let f := a / 2 ^ k
    if f = 1 then none
    else
      match safeIteration ⟨f, ORDER, 1, 0, k⟩ with
      | none => none
      | some s1 =>
        if s1.f = 1 then none
        else
          match safeIteration s1 with
          | none => none
          | some s2 => Option.map InvState.c (invLoop fuel s2)

/-- Divergence predicate: `inverseFuel` applied to a given input runs out of fuel at EVERY fuel
value: the concrete C loops never exit, whatever bound one imposes. -/
def inverseDiverges (a : ℕ) : Prop :=
  ∀ fuel : ℕ, inverseFuel fuel a = InvResult.noFuel

end Def

namespace Def

theorem invLoop_step (m n : ℕ) (s s1 : InvState) (hmn : m = n + 1) (hf : ¬(s.f = 1))
    (h : unsafeIteration s = some s1) : invLoop m s = invLoop n s1 := by
  subst hmn
  show invLoop (Nat.succ n) s = invLoop n s1
  rw [invLoop.eq_def]
  simp only [if_neg hf, h]

theorem invLoop_done (fuel : ℕ) (s : InvState) (hf : s.f = 1) : invLoop fuel s = some s := by
  rw [invLoop.eq_def, if_pos hf]

theorem inverseLoopExitC_unfold (fuel a k : ℕ) (s1 s2 : InvState)
    (h1 : tzFuel 64 a = some k)
    (h2 : ¬(a / 2 ^ k = 1))
    (h3 : safeIteration ⟨a / 2 ^ k, ORDER, 1, 0, k⟩ = some s1)
    (h4 : ¬(s1.f = 1))
    (h5 : safeIteration s1 = some s2) :
    inverseLoopExitC fuel a = Option.map InvState.c (invLoop fuel s2) := by
  unfold inverseLoopExitC
  rw [h1]
  simp only [if_neg h2, h3, if_neg h4, h5]

end Def

namespace Def

/-- Helper: the full run of the `while (f != 1)` loop of `inverse` on input
805, stepped through its 23 iterations with explicit intermediate states. -/
theorem invLoop805 :
    invLoop 40 (InvState.mk 1152921504338411671 805 3 16 4) =
      some (InvState.mk 1 3 89483895187886116589 286898429633072934088 77) := by
  rw [invLoop_step 40 39 (InvState.mk 1152921504338411671 805 3 16 4)
    (InvState.mk 288230376084603119 805 19 64 6) (by norm_num) (by decide) (by decide)]
  rw [invLoop_step 39 38 (InvState.mk 288230376084603119 805 19 64 6)
    (InvState.mk 72057594021150981 805 83 256 8) (by norm_num) (by decide) (by decide)]
  rw [invLoop_step 38 37 (InvState.mk 72057594021150981 805 83 256 8)
    (InvState.mk 2251799813160943 805 (-173) 8192 13) (by norm_num) (by decide) (by decide)]
  rw [invLoop_step 37 36 (InvState.mk 2251799813160943 805 (-173) 8192 13)
    (InvState.mk 562949953290437 805 8019 32768 15) (by norm_num) (by decide) (by decide)]
  rw [invLoop_step 36 35 (InvState.mk 562949953290437 805 8019 32768 15)
    (InvState.mk 17592186040301 805 (-24749) 1048576 20) (by norm_num) (by decide) (by decide)]
  rw [invLoop_step 35 34 (InvState.mk 17592186040301 805 (-24749) 1048576 20)
    (InvState.mk 2199023254937 805 (-1073325) 8388608 23) (by norm_num) (by decide) (by decide)]
  rw [invLoop_step 34 33 (InvState.mk 2199023254937 805 (-1073325) 8388608 23)
    (InvState.mk 549755813533 805 (-9461933) 33554432 25) (by norm_num) (by decide) (by decide)]
  rw [invLoop_step 33 32 (InvState.mk 549755813533 805 (-9461933) 33554432 25)
    (InvState.mk 68719476591 805 (-43016365) 268435456 28) (by norm_num) (by decide) (by decide)]
  rw [invLoop_step 32 31 (InvState.mk 68719476591 805 (-43016365) 268435456 28)
    (InvState.mk 17179869349 805 225419091 1073741824 30) (by norm_num) (by decide) (by decide)]
  rw [invLoop_step 31 30 (InvState.mk 17179869349 805 225419091 1073741824 30)
    (InvState.mk 134217723 805 (-848322733) 137438953472 37) (by norm_num) (by decide) (by decide)]
  rw [invLoop_step 30 29 (InvState.mk 134217723 805 (-848322733) 137438953472 37)
    (InvState.mk 4194329 805 136590630739 4398046511104 42) (by norm_num) (by decide) (by decide)]
  rw [invLoop_step 29 28 (InvState.mk 4194329 805 136590630739 4398046511104 42)
    (InvState.mk 1048381 805 (-4261455880365) 17592186044416 44) (by norm_num) (by decide) (by decide)]
  rw [invLoop_step 28 27 (InvState.mk 1048381 805 (-4261455880365) 17592186044416 44)
    (InvState.mk 130947 805 (-21853641924781) 140737488355328 47) (by norm_num) (by decide) (by decide)]
  rw [invLoop_step 27 26 (InvState.mk 130947 805 (-21853641924781) 140737488355328 47)
    (InvState.mk 16469 805 118883846430547 1125899906842624 50) (by norm_num) (by decide) (by decide)]
  rw [invLoop_step 26 25 (InvState.mk 16469 805 118883846430547 1125899906842624 50)
    (InvState.mk 979 805 (-1007016060412077) 18014398509481984 54) (by norm_num) (by decide) (by decide)]
  rw [invLoop_step 25 24 (InvState.mk 979 805 (-1007016060412077) 18014398509481984 54)
    (InvState.mk 223 805 17007382449069907 144115188075855872 57) (by norm_num) (by decide) (by decide)]
  rw [invLoop_step 24 23 (InvState.mk 223 805 17007382449069907 144115188075855872 57)
    (InvState.mk 257 223 161122570524925779 68029529796279628 59) (by norm_num) (by decide) (by decide)]
  rw [invLoop_step 23 22 (InvState.mk 257 223 161122570524925779 68029529796279628 59)
    (InvState.mk 15 223 229152100321205407 2176944953480948096 64) (by norm_num) (by decide) (by decide)]
  rw [invLoop_step 22 21 (InvState.mk 15 223 229152100321205407 2176944953480948096 64)
    (InvState.mk 13 15 1947792853159742689 3666433605139286512 68) (by norm_num) (by decide) (by decide)]
  rw [invLoop_step 21 20 (InvState.mk 13 15 1947792853159742689 3666433605139286512 68)
    (InvState.mk 7 13 5614226458299029201 7791171412638970756 70) (by norm_num) (by decide) (by decide)]
  rw [invLoop_step 20 19 (InvState.mk 7 13 5614226458299029201 7791171412638970756 70)
    (InvState.mk 5 7 13405397870937999957 22456905833196116804 72) (by norm_num) (by decide) (by decide)]
  rw [invLoop_step 19 18 (InvState.mk 5 7 13405397870937999957 22456905833196116804 72)
    (InvState.mk 3 5 35862303704134116761 53621591483751999828 74) (by norm_num) (by decide) (by decide)]
  rw [invLoop_step 18 17 (InvState.mk 3 5 35862303704134116761 53621591483751999828 74)
    (InvState.mk 1 3 89483895187886116589 286898429633072934088 77) (by norm_num) (by decide) (by decide)]
  exact invLoop_done 17 (InvState.mk 1 3 89483895187886116589 286898429633072934088 77) rfl

end Def

namespace Def

/-- Claim C1 (code-bug evaluation): at the concrete input a = p - 4
(nonzero mod p), `inverse` takes the early-exit path with Bezout coefficient
c = -1 and returns `-inverse_2exp(2)` computed with the two's-complement
unary minus, namely 4611686021648613375; the product `a * inverse(a)` is then
18446744052234715142, which is not congruent to 1 mod p — the contract
`a * inverse(a) = 1` fails outright.  The true inverse 4611686017353646080
(off from the returned value by exactly EPSILON) multiplies with a to
p + 1 = 18446744069414584322, congruent to 1 but stored non-canonically, so
even on correct paths the product's stored value need not be exactly 1. -/
theorem C1_inverse_wrong_at_p_minus_4 :
    18446744069414584317 % ORDER ≠ 0 ∧
    inverseFuel 10 18446744069414584317 = InvResult.ok 4611686021648613375 ∧
    gf_mul 18446744069414584317 4611686021648613375 = 18446744052234715142 ∧
    18446744052234715142 % ORDER ≠ 1 ∧
    gf_mul 18446744069414584317 4611686017353646080 = 18446744069414584322 ∧
    18446744069414584322 % ORDER = 1 := by
  refine ⟨by decide, by decide, by decide, by decide, by decide, by decide⟩

/-- Claim C5 (code-bug evaluation): at the concrete nonzero input a = 1,
`negate` returns the two's-complement pattern 2^64 - 1 and
`a + negate(a)` evaluates to EPSILON = 4294967295, whose residue mod p is
EPSILON, not 0: `negate` is not an additive inverse mod p. -/
theorem C5_negate_bug_at_one :
    gf_neg 1 = 18446744073709551615 ∧
    gf_add 1 (gf_neg 1) = 4294967295 ∧
    4294967295 % ORDER ≠ 0 := by
  refine ⟨by decide, by decide, by decide⟩

/-- Supporting fact for claim C5: for EVERY a with 0 < a < 2^64, the sum
`a + negate(a)` has stored value exactly EPSILON (it is never 0). -/
theorem gf_add_neg_eq_epsilon (a : ℕ) (h0 : 0 < a) (h1 : a < U64) :
    gf_add a (gf_neg a) = EPSILON := by
  unfold gf_add gf_neg overflowingAdd
  simp only [U64, EPSILON, decide_eq_true_eq] at *
  split_ifs <;> omega

/-- Witness for `gf_add_neg_eq_epsilon` at a = 7. -/
theorem gf_add_neg_eq_epsilon_witness :
    gf_add 7 (gf_neg 7) = EPSILON :=
  gf_add_neg_eq_epsilon 7 (by decide) (by decide)

/-- Claim C6 (counterexample): `from_canonical(p - 1) + from_canonical(1)`
has stored 64-bit value p = 18446744069414584321, not 0: the claimed
reduction to canonical 0 does not happen. -/
theorem C6_boundary_add_counterexample :
    gf_add (from_canonical_u64 (ORDER - 1)) (from_canonical_u64 1) = ORDER ∧
    ORDER ≠ 0 := by
  refine ⟨by decide, by decide⟩

/-- Claim C6 (amended): the boundary addition
`from_canonical(p - 1) + from_canonical(1)` reduces to 0 only modulo p: its
stored value is the non-canonical zero representative p itself. -/
theorem C6_boundary_add_amended :
    gf_add (from_canonical_u64 (ORDER - 1)) (from_canonical_u64 1) = ORDER ∧
    ORDER % ORDER = 0 := by
  refine ⟨by decide, by decide⟩

/-- Claim C8 (counterexample): with an input representing 0 mod p (stored
value 0, or the non-canonical zero p), `inverse` does NOT trigger a fatal
assertion — the `assert(f != 0)` at def.cuh:219 is commented out.  Instead
the computation runs out of any amount of fuel: the trailing-zeros scan of 0
(for input 0), respectively the trailing-zeros scan of `f - g = 0` in the
first safe iteration (for input p), loops forever. -/
theorem C8_zero_input_diverges_not_asserts :
    inverseDiverges 0 ∧ inverseDiverges ORDER :=
  ⟨fun _ => rfl, fun _ => rfl⟩

/-- Helper for claim C8: the first safe iteration starts from the Bezout
pair (c, d) = (1, 0), so whichever of the four swap/branch combinations
runs, the new c is 1 - 0, 1 + 0, 0 - 1 or 0 + 1, i.e. 1 or -1. -/
theorem safeIteration_first_c (f k : ℕ) (s1 : InvState)
    (h : safeIteration ⟨f, ORDER, 1, 0, k⟩ = some s1) : s1.c = 1 ∨ s1.c = -1 := by
  unfold safeIteration at h
  simp only at h
  split_ifs at h with h1 h2 h2
  · cases htz : tzFuel 64 ((ORDER + U64 - f) % U64) with
    | none => rw [htz] at h; exact absurd h (by simp)
    | some kk =>
      rw [htz] at h
      simp only [Option.some.injEq] at h
      right
      rw [← h]
      simp
  · cases htz : tzFuel 64 (ORDER / 4 + f / 4 + 1) with
    | none => rw [htz] at h; exact absurd h (by simp)
    | some kk =>
      rw [htz] at h
      simp only [Option.some.injEq] at h
      left
      rw [← h]
      simp
  · cases htz : tzFuel 64 ((f + U64 - ORDER) % U64) with
    | none => rw [htz] at h; exact absurd h (by simp)
    | some kk =>
      rw [htz] at h
      simp only [Option.some.injEq] at h
      left
      rw [← h]
      simp
  · cases htz : tzFuel 64 (f / 4 + ORDER / 4 + 1) with
    | none => rw [htz] at h; exact absurd h (by simp)
    | some kk =>
      rw [htz] at h
      simp only [Option.some.injEq] at h
      left
      rw [← h]
      simp

/-- Helper for claim C8: the only active assertion inside `inverse`
(`assert(c == 1)` at def.cuh:283, on the early-exit path after the first
safe iteration) can never fail, for ANY input and fuel: at that point c is
always 1 or -1. -/
theorem inverseFuel_never_asserts (fuel a : ℕ) :
    inverseFuel fuel a ≠ InvResult.assertFail := by
  unfold inverseFuel
  cases htz : tzFuel 64 a with
  | none => simp
  | some k =>
    simp only
    split_ifs with h1
    · simp
    · cases hsi : safeIteration ⟨a / 2 ^ k, ORDER, 1, 0, k⟩ with
      | none => simp
      | some s1 =>
        simp only
        by_cases h2 : s1.f = 1
        · rw [if_pos h2]
          rcases safeIteration_first_c (a / 2 ^ k) k s1 hsi with hc | hc
          · rw [hc]
            simp
          · rw [hc]
            simp
        · rw [if_neg h2]
          cases safeIteration s1 with
          | none => simp
          | some s2 =>
            simp only
            cases invLoop fuel s2 with
            | none => simp
            | some s3 =>
              simp only
              cases canonAddFuel fuel s3.c with
              | none => simp
              | some c1 =>
                simp only
                cases canonSubFuel fuel c1 with
                | none => simp
                | some c2 => simp

/-- Claim C8 (amended): calling `inverse` on an input representing 0 mod p
does not abort; for every fuel bound the run is still inside one of the
non-terminating loops (`noFuel`), and the assertion in `inverse` never
fails for any input whatsoever (valid nonzero field data included). -/
theorem C8_zero_input_nontermination :
    ∀ fuel : ℕ,
      inverseFuel fuel 0 = InvResult.noFuel ∧
      inverseFuel fuel ORDER = InvResult.noFuel ∧
      ∀ a : ℕ, inverseFuel fuel a ≠ InvResult.assertFail :=
  fun fuel => ⟨rfl, rfl, fun a => inverseFuel_never_asserts fuel a⟩

/-- Claim C9 (counterexample): at the concrete nonzero input a = 805 the
`while (f != 1)` loop of `inverse` exits with Bezout coefficient
c = 89483895187886116589, which is not in the interval (-2p, 2p) (it is
about 4.85 p), and one subtraction of p is not enough to canonicalize it:
the claimed "at most 2 additions / at most 1 subtraction" bound is false. -/
theorem C9_canonicalization_bound_counterexample :
    inverseLoopExitC 40 805 = some 89483895187886116589 ∧
    canonSubFuel 1 89483895187886116589 = none ∧
    ¬(89483895187886116589 < 2 * ORDER) := by
  refine ⟨?_, by decide, by decide⟩
  rw [inverseLoopExitC_unfold 40 805 0 (InvState.mk 4611686017353645879 805 (-1) 4 2)
    (InvState.mk 1152921504338411671 805 3 16 4) (by decide) (by decide) (by decide)
    (by decide) (by decide)]
  rw [invLoop805]
  rfl

end Def

namespace Def

theorem reduce128_decompose (hi lo : ℕ) (hhi : hi < U64) (hlo : lo < U64) :
    ∃ m : ℕ, hi * U64 + lo = reduce128 hi lo + ORDER * m ∧ reduce128 hi lo < U64 := by
  unfold reduce128
  simp only [U64, U32, EPSILON, ORDER] at *
  split_ifs with h1 h2 h3
  · exact ⟨hi / 4294967296 * 4294967297 + hi % 4294967296, by omega, by omega⟩
  · exact ⟨hi / 4294967296 * 4294967297 + hi % 4294967296 - 1, by omega, by omega⟩
  · exact ⟨hi / 4294967296 * 4294967297 + hi % 4294967296 + 1, by omega, by omega⟩
  · exact ⟨hi / 4294967296 * 4294967297 + hi % 4294967296, by omega, by omega⟩

theorem reduce128_correct (hi lo : ℕ) (hhi : hi < U64) (hlo : lo < U64) :
    reduce128 hi lo % ORDER = (hi * U64 + lo) % ORDER ∧ reduce128 hi lo < U64 := by
  obtain ⟨m, hm, hbound⟩ := reduce128_decompose hi lo hhi hlo
  refine ⟨?_, hbound⟩
  rw [hm, Nat.add_mul_mod_self_left]

theorem mulSplit_exact (a b : ℕ) (ha : a < U64) (hb : b < U64) :
    (mulSplit a b).1 * U64 + (mulSplit a b).2 = a * b := by
  simp only [mulSplit, U64, U32] at *
  set aL := a % 4294967296 with haL
  set aH := a / 4294967296 with haH
  set bL := b % 4294967296 with hbL
  set bH := b / 4294967296 with hbH
  have ea : a = 4294967296 * aH + aL := by
    rw [haH, haL]
    exact (Nat.div_add_mod a 4294967296).symm
  have eb : b = 4294967296 * bH + bL := by
    rw [hbH, hbL]
    exact (Nat.div_add_mod b 4294967296).symm
  have hab : a * b = aH * bH * 18446744073709551616 +
      (aL * bH + aH * bL) * 4294967296 + aL * bL := by
    rw [ea, eb]
    ring
  have hbndA : aL < 4294967296 := by
    rw [haL]
    exact Nat.mod_lt _ (by norm_num)
  have hbndB : bL < 4294967296 := by
    rw [hbL]
    exact Nat.mod_lt _ (by norm_num)
  have hbndAH : aH < 4294967296 := by
    rw [haH]
    omega
  have hbndBH : bH < 4294967296 := by
    rw [hbH]
    omega
  set PL := aL * bL with hPL0
  set M1 := aL * bH with hM10
  set M2 := aH * bL with hM20
  set PH := aH * bH with hPH0
  have h1 : PL ≤ 4294967295 * 4294967295 := by
    rw [hPL0]
    exact Nat.mul_le_mul (by omega) (by omega)
  have h2 : M1 ≤ 4294967295 * 4294967295 := by
    rw [hM10]
    exact Nat.mul_le_mul (by omega) (by omega)
  have h3 : M2 ≤ 4294967295 * 4294967295 := by
    rw [hM20]
    exact Nat.mul_le_mul (by omega) (by omega)
  have h4 : PH ≤ 4294967295 * 4294967295 := by
    rw [hPH0]
    exact Nat.mul_le_mul (by omega) (by omega)
  omega

theorem mulSplit_fst_lt (a b : ℕ) : (mulSplit a b).1 < U64 := by
  simp only [mulSplit, U64]
  exact Nat.mod_lt _ (by norm_num)

theorem mulSplit_snd_lt (a b : ℕ) : (mulSplit a b).2 < U64 := by
  simp only [mulSplit, U64]
  exact Nat.mod_lt _ (by norm_num)

theorem gf_mul_modeq (a b : ℕ) (ha : a < U64) (hb : b < U64) :
    gf_mul a b % ORDER = a * b % ORDER ∧ gf_mul a b < U64 := by
  obtain ⟨hc, hlt⟩ := reduce128_correct (mulSplit a b).1 (mulSplit a b).2
    (mulSplit_fst_lt a b) (mulSplit_snd_lt a b)
  unfold gf_mul
  refine ⟨?_, hlt⟩
  rw [hc, mulSplit_exact a b ha hb]

theorem gf_add_modeq (a b : ℕ) (ha : a < U64) (hb : b < U64) :
    gf_add a b % ORDER = (a + b) % ORDER ∧ gf_add a b < U64 := by
  unfold gf_add overflowingAdd
  simp only [U64, EPSILON, ORDER, decide_eq_true_eq] at *
  constructor
  · split_ifs <;> omega
  · split_ifs <;> omega

/-- Claim C3: for every pair of 64-bit values (hi, lo), `reduce128(hi, lo)`
returns a 64-bit value congruent to hi * 2^64 + lo modulo
p = 2^64 - 2^32 + 1 (possibly non-canonical). -/
theorem C3_reduce128_congruent (hi lo : ℕ) (hhi : hi < U64) (hlo : lo < U64) :
    reduce128 hi lo % ORDER = (hi * U64 + lo) % ORDER ∧ reduce128 hi lo < U64 :=
  reduce128_correct hi lo hhi hlo

/-- Witness for claim C3 at the concrete pair
(hi, lo) = (18446744069414584320, 12345). -/
theorem C3_reduce128_congruent_witness :
    (18446744069414584320 : ℕ) < U64 ∧ (12345 : ℕ) < U64 ∧
    (reduce128 18446744069414584320 12345 % ORDER =
        (18446744069414584320 * U64 + 12345) % ORDER ∧
      reduce128 18446744069414584320 12345 < U64) :=
  ⟨by decide, by decide,
    C3_reduce128_congruent 18446744069414584320 12345 (by decide) (by decide)⟩

/-- Claim C7 (counterexample): the non-canonical zero `from_canonical(p)`
does NOT yield results identical to canonical 0: already for addition with
x = 0 the stored results differ (p versus 0), and the raw-data equality
operator distinguishes p from 0. -/
theorem C7_noncanonical_not_identical :
    gf_add (from_canonical_u64 ORDER) 0 = ORDER ∧
    gf_add (from_canonical_u64 0) 0 = 0 ∧
    ORDER ≠ 0 ∧
    gf_eq (from_canonical_u64 ORDER) 0 = false ∧
    gf_eq (from_canonical_u64 0) 0 = true := by
  refine ⟨by decide, by decide, by decide, by decide, by decide⟩

/-- Claim C7 (amended): for add, sub, mul and square, replacing canonical 0
by the non-canonical zero `from_canonical(p)` gives results that are
congruent mod p (though not bit-identical); for negate and raw equality even
congruence fails: `-p` evaluates to EPSILON, which is not 0 mod p, and
`p == 0` is false while `0 == 0` is true. -/
theorem C7_noncanonical_tolerance (x : ℕ) (hx : x < U64) :
    gf_add ORDER x % ORDER = gf_add 0 x % ORDER ∧
    gf_add x ORDER % ORDER = gf_add x 0 % ORDER ∧
    gf_sub ORDER x % ORDER = gf_sub 0 x % ORDER ∧
    gf_sub x ORDER % ORDER = gf_sub x 0 % ORDER ∧
    gf_mul ORDER x % ORDER = gf_mul 0 x % ORDER ∧
    gf_mul x ORDER % ORDER = gf_mul x 0 % ORDER ∧
    gf_square ORDER % ORDER = gf_square 0 % ORDER ∧
    gf_neg ORDER = EPSILON ∧ EPSILON % ORDER ≠ gf_neg 0 % ORDER ∧
    gf_eq ORDER 0 = false ∧ gf_eq 0 0 = true := by
  have hP : ORDER < U64 := by decide
  have h0 : (0 : ℕ) < U64 := by decide
  refine ⟨?_, ?_, ?_, ?_, ?_, ?_, ?_, by decide, by decide, by decide, by decide⟩
  · rw [(gf_add_modeq ORDER x hP hx).1, (gf_add_modeq 0 x h0 hx).1]
    simp only [ORDER]
    omega
  · rw [(gf_add_modeq x ORDER hx hP).1, (gf_add_modeq x 0 hx h0).1]
    simp only [ORDER]
    omega
  · unfold gf_sub overflowingSub
    simp only [U64, EPSILON, ORDER, decide_eq_true_eq] at *
    split_ifs <;> omega
  · unfold gf_sub overflowingSub
    simp only [U64, EPSILON, ORDER, decide_eq_true_eq] at *
    split_ifs <;> omega
  · rw [(gf_mul_modeq ORDER x hP hx).1, (gf_mul_modeq 0 x h0 hx).1]
    simp only [ORDER]
    omega
  · rw [(gf_mul_modeq x ORDER hx hP).1, (gf_mul_modeq x 0 hx h0).1]
    simp only [ORDER]
    omega
  · rfl

/-- Witness for the amended claim C7 at x = 5. -/
theorem C7_noncanonical_tolerance_witness :
    (5 : ℕ) < U64 ∧ gf_add ORDER 5 % ORDER = gf_add 0 5 % ORDER :=
  ⟨by decide, (C7_noncanonical_tolerance 5 (by decide)).1⟩

end Def

namespace Def

/-- Embeds `PoseidonHasher::add_u160_u128` (def.cuh:620-633): a 160-bit accumulator
held as (lo : u128, hi : u32); adds a u128 with explicit carry into hi. -/
def add_u160_u128 (pa : ℕ × ℕ) (y : ℕ) : ℕ × ℕ :=
  let resLo := (pa.1 + y) % U128
  let resHi := (pa.2 + if U128 ≤ pa.1 + y then 1 else 0) % U32
  (resLo, resHi)

/-- Embeds `PoseidonHasher::reduce_u160` (def.cuh:635-644). -/
def reduce_u160 (pa : ℕ × ℕ) : ℕ :=
  let nLoHi := pa.1 / U64
  let nLoLo := pa.1 % U64
  let reducedHi := from_noncanonical_u96 nLoHi pa.2
  from_noncanonical_u128 ((reducedHi * U64 + nLoLo) % U128)

theorem add_u160_u128_range (pa : ℕ × ℕ) (y : ℕ) :
    (add_u160_u128 pa y).1 < U128 ∧ (add_u160_u128 pa y).2 < U32 := by
  unfold add_u160_u128
  exact ⟨Nat.mod_lt _ (by decide), Nat.mod_lt _ (by decide)⟩

theorem from_noncanonical_u96_eq (nLo nHi : ℕ) (h1 : nLo < U64) (h2 : nHi < U32) :
    from_noncanonical_u96 nLo nHi = reduce128 nHi nLo := by
  unfold from_noncanonical_u96 from_noncanonical_u128
  have hlt : nHi * U64 + nLo < U128 := by
    simp only [U64, U32, U128] at *
    omega
  rw [Nat.mod_eq_of_lt hlt]
  have hd : (nHi * U64 + nLo) / U64 = nHi := by
    simp only [U64] at *
    omega
  have hm : (nHi * U64 + nLo) % U64 = nLo := by
    simp only [U64] at *
    omega
  rw [hd, hm]

/-- Claim C10: for every 160-bit accumulator pair (lo : u128, hi : u32) (in
particular every pair built by `add_u160_u128`, see `add_u160_u128_range`),
`reduce_u160` returns a 64-bit field element congruent to hi * 2^128 + lo
modulo p = 2^64 - 2^32 + 1. -/
theorem C10_reduce_u160_congruent (lo hi : ℕ) (hlo : lo < U128) (hhi : hi < U32) :
    reduce_u160 (lo, hi) % ORDER = (hi * U128 + lo) % ORDER ∧
    reduce_u160 (lo, hi) < U64 := by
  have hdiv : lo / U64 < U64 := by
    simp only [U64, U128] at *
    omega
  have hhiU : hi < U64 := by
    simp only [U32, U64] at *
    omega
  obtain ⟨hRHmod, hRHlt⟩ := reduce128_correct hi (lo / U64) hhiU hdiv
  have hmlt : lo % U64 < U64 := Nat.mod_lt lo (by decide)
  have hlt2 : reduce128 hi (lo / U64) * U64 + lo % U64 < U128 := by
    simp only [U64, U128] at *
    omega
  have e1 : reduce_u160 (lo, hi) =
      reduce128 (reduce128 hi (lo / U64)) (lo % U64) := by
    simp only [reduce_u160]
    rw [from_noncanonical_u96_eq (lo / U64) hi hdiv hhi]
    unfold from_noncanonical_u128
    rw [Nat.mod_eq_of_lt hlt2]
    have hd : (reduce128 hi (lo / U64) * U64 + lo % U64) / U64 =
        reduce128 hi (lo / U64) := by
      simp only [U64] at *
      omega
    have hm : (reduce128 hi (lo / U64) * U64 + lo % U64) % U64 = lo % U64 := by
      simp only [U64] at *
      omega
    rw [hd, hm]
  obtain ⟨hfin, hfinlt⟩ := reduce128_correct (reduce128 hi (lo / U64)) (lo % U64)
    hRHlt hmlt
  rw [e1]
  refine ⟨?_, hfinlt⟩
  rw [hfin]
  have hstep : (reduce128 hi (lo / U64) * U64 + lo % U64) % ORDER =
      ((hi * U64 + lo / U64) * U64 + lo % U64) % ORDER := by
    have h1 : Nat.ModEq ORDER (reduce128 hi (lo / U64)) (hi * U64 + lo / U64) := hRHmod
    exact (h1.mul_right U64).add_right (lo % U64)
  rw [hstep]
  have heq : (hi * U64 + lo / U64) * U64 + lo % U64 = hi * U128 + lo := by
    simp only [U64, U128]
    omega
  rw [heq]

/-- Witness for claim C10 at the concrete pair
(lo, hi) = (2^127 + 987654321, 4000000000). -/
theorem C10_reduce_u160_congruent_witness :
    (170141183460469231731687303716372166449 : ℕ) < U128 ∧
    (4000000000 : ℕ) < U32 ∧
    (reduce_u160 (170141183460469231731687303716372166449, 4000000000) % ORDER =
        (4000000000 * U128 + 170141183460469231731687303716372166449) % ORDER ∧
      reduce_u160 (170141183460469231731687303716372166449, 4000000000) < U64) :=
  ⟨by decide, by decide,
    C10_reduce_u160_congruent 170141183460469231731687303716372166449 4000000000
      (by decide) (by decide)⟩

end Def

namespace Def

theorem canonAddFuel_correct (n : ℕ) : ∀ c : ℤ, -(n : ℤ) * ORDER ≤ c →
    ∃ r : ℤ, canonAddFuel n c = some r ∧ 0 ≤ r ∧ r % ORDER = c % ORDER ∧
      (c < 0 → r < ORDER) ∧ (0 ≤ c → r = c) := by
  induction n with
  | zero =>
    intro c h
    have hc : 0 ≤ c := by simpa using h
    refine ⟨c, ?_, hc, rfl, fun hlt => absurd hlt (not_lt.mpr hc), fun _ => rfl⟩
    rw [canonAddFuel.eq_def, if_neg (not_lt.mpr hc)]
  | succ n ih =>
    intro c h
    by_cases hc : c < 0
    · have hstep : canonAddFuel (n + 1) c = canonAddFuel n (c + ORDER) := by
        show canonAddFuel (Nat.succ n) c = _
        rw [canonAddFuel.eq_def, if_pos hc]
      have hbound : -(n : ℤ) * ORDER ≤ c + ORDER := by
        push_cast at h ⊢
        simp only [ORDER] at h ⊢
        omega
      obtain ⟨r, hr, h0, hmod, hneg, hpos⟩ := ih (c + ORDER) hbound
      refine ⟨r, by rw [hstep]; exact hr, h0, ?_, ?_, fun h0c => absurd hc (not_lt.mpr h0c)⟩
      · rw [hmod]
        simp only [ORDER]
        omega
      · intro _
        by_cases hc2 : c + ORDER < 0
        · exact hneg hc2
        · have := hpos (by omega)
          subst this
          simp only [ORDER] at hc ⊢
          omega
    · have hc0 : 0 ≤ c := not_lt.mp hc
      refine ⟨c, ?_, hc0, rfl, fun hlt => absurd hlt hc, fun _ => rfl⟩
      rw [canonAddFuel.eq_def, if_neg hc]

theorem canonSubFuel_correct (n : ℕ) : ∀ c : ℤ, 0 ≤ c → c < ((n : ℤ) + 1) * ORDER →
    ∃ r : ℤ, canonSubFuel n c = some r ∧ 0 ≤ r ∧ r < ORDER ∧ r % ORDER = c % ORDER := by
  induction n with
  | zero =>
    intro c h0 hlt
    have hc : c < (ORDER : ℤ) := by
      push_cast at hlt
      omega
    exact ⟨c, by rw [canonSubFuel.eq_def, if_pos hc], h0, hc, rfl⟩
  | succ n ih =>
    intro c h0 hlt
    by_cases hc : c < (ORDER : ℤ)
    · exact ⟨c, by rw [canonSubFuel.eq_def, if_pos hc], h0, hc, rfl⟩
    · have hstep : canonSubFuel (n + 1) c = canonSubFuel n (c - ORDER) := by
        show canonSubFuel (Nat.succ n) c = _
        rw [canonSubFuel.eq_def, if_neg hc]
      have h0' : 0 ≤ c - ORDER := by omega
      have hlt' : c - ORDER < ((n : ℤ) + 1) * ORDER := by
        push_cast at hlt ⊢
        simp only [ORDER] at hlt ⊢
        omega
      obtain ⟨r, hr, hr0, hrlt, hrmod⟩ := ih (c - ORDER) h0' hlt'
      refine ⟨r, by rw [hstep]; exact hr, hr0, hrlt, ?_⟩
      rw [hrmod]
      simp only [ORDER]
      omega

/-- Claim C9 (amended): the two canonicalization loops of `inverse` do bring
the exit Bezout coefficient c into [0, p) while preserving its residue, with
n additions / n subtractions sufficing whenever -n*p <= c < (n+1)*p — but the
specific claimed bound of 2 additions / 1 subtraction (equivalently, c in
(-2p, 2p) at loop exit) is false: input 805 exits the GCD loop with
c = 89483895187886116589, about 4.85 p (see the counterexample theorem). -/
theorem C9_canonicalization_amended (c : ℤ) (n : ℕ)
    (hlow : -(n : ℤ) * ORDER ≤ c) (hhigh : c < ((n : ℤ) + 1) * ORDER) :
    ∃ r : ℤ, (canonAddFuel n c).bind (canonSubFuel n) = some r ∧
      0 ≤ r ∧ r < ORDER ∧ r % ORDER = c % ORDER := by
  obtain ⟨r1, h1, h01, hmod1, hneg1, hpos1⟩ := canonAddFuel_correct n c hlow
  have hr1lt : r1 < ((n : ℤ) + 1) * ORDER := by
    by_cases hc : c < 0
    · have := hneg1 hc
      simp only [ORDER] at this ⊢
      push_cast
      omega
    · rw [hpos1 (not_lt.mp hc)]
      exact hhigh
  obtain ⟨r2, h2, h02, hlt2, hmod2⟩ := canonSubFuel_correct n r1 h01 hr1lt
  refine ⟨r2, ?_, h02, hlt2, ?_⟩
  · rw [h1]
    exact h2
  · rw [hmod2, hmod1]

/-- Witness for the amended claim C9 at c = -3 with n = 1. -/
theorem C9_canonicalization_amended_witness :
    -((1 : ℕ) : ℤ) * ORDER ≤ (-3 : ℤ) ∧
    (-3 : ℤ) < (((1 : ℕ) : ℤ) + 1) * ORDER ∧
    ∃ r : ℤ, (canonAddFuel 1 (-3)).bind (canonSubFuel 1) = some r ∧
      0 ≤ r ∧ r < ORDER ∧ r % ORDER = (-3 : ℤ) % ORDER :=
  ⟨by decide, by decide, C9_canonicalization_amended (-3) 1 (by decide) (by decide)⟩

end Def

namespace Def

/-- Modelled from the spec: the configuration tables of `constants.cuh` are
not under src/ (spec section 3 calls them an external, immutable data set
"supplied to the core, not derived by it", and gives no numeric values).
They are therefore carried as unspecified parameters; each field stands for
the table of the same name in the source; `halfNFullRounds` is
`HALF_N_FULL_ROUNDS` and `nPRounds` is `N_PARTIAL_ROUNDS`, while
`SPONGE_WIDTH` itself is 12 (spec section 3: a PermutationState is "a
fixed-size ordered sequence of 12 FieldElements"). -/
structure PoseidonParams where
  allRoundConstants : ℕ → ℕ
  mdsCirc : ℕ → ℕ
  mdsDiag : ℕ → ℕ
  fpFirstRoundConstant : ℕ → ℕ
  fpRoundConstants : ℕ → ℕ
  fpInitialMatrix : ℕ → ℕ → ℕ
  fpWHats : ℕ → ℕ → ℕ
  fpVs : ℕ → ℕ → ℕ
  nPRounds : ℕ
  halfNFullRounds : ℕ

/-- The `constant_layer` lambda of `permute_poseidon` (def.cuh:657-664). -/
def constantLayer (P : PoseidonParams) (roundCtr : ℕ) (st : List ℕ) : List ℕ :=
  List.mapIdx (fun i x => add_canonical_u64 x (P.allRoundConstants (i + 12 * roundCtr))) st

/-- The `sbox_monomial` lambda (def.cuh:666-672): x^7 as x^3 * x^4. -/
def sboxMonomial (x : ℕ) : ℕ :=
  let x2 := gf_square x
  let x4 := gf_square x2
  let x3 := gf_mul x x2
  gf_mul x3 x4

/-- The `sbox_layer` lambda (def.cuh:674-680). -/
def sboxLayer (st : List ℕ) : List ℕ := st.map sboxMonomial

/-- The `mds_row_shf` lambda (def.cuh:682-702): row-r dot product against the
circulant and diagonal MDS tables, accumulated in a (wrapping) u128. -/
def mdsRowShf (P : PoseidonParams) (r : ℕ) (v : List ℕ) : ℕ :=
  let base := (List.range 12).foldl
    (fun res i => (res + v.getD ((i + r) % 12) 0 * P.mdsCirc i % U128) % U128) 0
  (base + v.getD r 0 * P.mdsDiag r % U128) % U128

/-- The `mds_layer` lambda (def.cuh:704-721): one wide row sum per lane, then
a single reduction via `from_noncanonical_u96` with the row sum truncated to
(u64 low, u32 high). -/
def mdsLayer (P : PoseidonParams) (st : List ℕ) : List ℕ :=
  List.mapIdx (fun r _ =>
    let sum := mdsRowShf P r st
    from_noncanonical_u96 (sum % U64) (sum / U64 % U32)) st

/-- The `full_rounds` lambda (def.cuh:723-733), threading the round counter:
each of `halfNFullRounds` passes applies constant layer, S-box layer and MDS
layer, then increments the counter. -/
def fullRounds (P : PoseidonParams) (q : ℕ × List ℕ) : ℕ × List ℕ :=
  (List.range P.halfNFullRounds).foldl
    (fun q' _ => (q'.1 + 1, mdsLayer P (sboxLayer (constantLayer P q'.1 q'.2)))) q

/-- The `partial_first_constant_layer` lambda (def.cuh:735-741). -/
def fpFirstConstantLayer (P : PoseidonParams) (st : List ℕ) : List ℕ :=
  List.mapIdx (fun i x => gf_add x (from_canonical_u64 (P.fpFirstRoundConstant i))) st

/-- The `mds_partial_layer_init` lambda (def.cuh:743-767): lane 0 passes
through; every other output lane c accumulates `state[r] * INITIAL_MATRIX
[r-1][c-1]` over r = 1..11 in ascending r order. -/
def mdsPLayerInit (P : PoseidonParams) (st : List ℕ) : List ℕ :=
  List.mapIdx (fun c _ =>
    if c = 0 then st.getD 0 0
    else (List.range 11).foldl
      (fun acc r0 => gf_add acc (gf_mul (st.getD (r0 + 1) 0)
        (from_canonical_u64 (P.fpInitialMatrix r0 (c - 1))))) 0) st

/-- The `mds_partial_layer_fast` lambda (def.cuh:769-800): 160-bit
accumulated dot product of lanes 1..11 against the round's W-hat vector,
plus `state[0] * (MDS_CIRC[0] + MDS_DIAG[0])`, reduced once into the new
lane 0; the other lanes get `state[i] + state[0] * VS[r][i-1]`. -/
def mdsPLayerFast (P : PoseidonParams) (r : ℕ) (st : List ℕ) : List ℕ :=
  let dSum0 := (List.range 11).foldl
    (fun pa i0 => add_u160_u128 pa (st.getD (i0 + 1) 0 * P.fpWHats r i0 % U128)) (0, 0)
  let mds0to0 := (P.mdsCirc 0 + P.mdsDiag 0) % U64
  let dSum := add_u160_u128 dSum0 (st.getD 0 0 * mds0to0 % U128)
  let d := reduce_u160 dSum
  List.mapIdx (fun i x =>
    if i = 0 then d
    else multiply_accumulate x (st.getD 0 0) (from_canonical_u64 (P.fpVs r (i - 1)))) st

/-- The `partial_rounds` lambda (def.cuh:802-816): first constant layer, the
one-off MDS initialization, then `nPRounds` passes of: S-box on lane 0 only,
add the round's scalar constant to lane 0, fast MDS step. -/
def pRounds (P : PoseidonParams) (q : ℕ × List ℕ) : ℕ × List ℕ :=
  let st1 := mdsPLayerInit P (fpFirstConstantLayer P q.2)
  let st2 := (List.range P.nPRounds).foldl
    (fun st i =>
      mdsPLayerFast P i
        (st.set 0 (add_canonical_u64 (sboxMonomial (st.getD 0 0)) (P.fpRoundConstants i))))
    st1
  (q.1 + P.nPRounds, st2)

/-- Embeds `PoseidonHasher::permute_poseidon` (def.cuh:652-828): full rounds,
partial rounds, full rounds.  The terminal `assert(round_ctr == N_ROUNDS)`
compares the counter, which here is structurally
2 * halfNFullRounds + nPRounds after the three phases. -/
def permute_poseidon (P : PoseidonParams) (st : List ℕ) : List ℕ :=
  (fullRounds P (pRounds P (fullRounds P (0, st)))).2

/-- Modelled from the spec: `SPONGE_RATE` is defined in `constants.cuh`,
which is not under src/.  Spec section 4.4 describes the absorb step as
copying the fixed 4-element input into the first "rate" lanes with the
capacity lanes left zero and a single permutation call, which forces
rate = 4 here (spec section 9 leaves the numeric value an open question; a
larger rate would make the copy loop `state[j] = input[i*SPONGE_RATE+j]`
read past the end of the 4-element input). -/
def SPONGE_RATE : ℕ := 4

/-- Embeds `PoseidonHasher::hash_n_to_m_no_pad` (def.cuh:830-842) with len = 4:
with SPONGE_RATE = 4 the absorb loop `for (i = 0; i < len; i +=
SPONGE_RATE)` executes exactly one pass, at i = 0, whose inner loop
overwrites lanes j < SPONGE_RATE of the zero-initialized state with
input[i * SPONGE_RATE + j] before the single permutation; the digest is the
first 4 lanes (`*(HashOut*)state`). -/
def hash_n_to_m_no_pad (P : PoseidonParams) (input : ℕ → ℕ) : List ℕ :=
  let st0 := List.replicate 12 0
  let st1 := List.mapIdx
    (fun j x => if j < SPONGE_RATE then input (0 * SPONGE_RATE + j) else x) st0
  (permute_poseidon P st1).take 4

/-- The hash as described by spec section 4.4: the state is the 4 inputs in
the first rate lanes followed by 8 untouched zero capacity lanes, the
permutation runs once, and the digest is the first 4 elements. -/
def hashSpec (P : PoseidonParams) (input : ℕ → ℕ) : List ℕ :=
  (permute_poseidon P
    [input 0, input 1, input 2, input 3, 0, 0, 0, 0, 0, 0, 0, 0]).take 4

/-- Claim C4: for every 4-element input (and every instantiation of the
configuration tables), the fixed-input-length hash zero-initializes the
12-lane state, copies the 4 inputs into the first rate lanes leaving the 8
capacity lanes zero, runs the Poseidon permutation exactly once, and returns
the first 4 elements of the result. -/
theorem C4_hash_absorbs_and_permutes_once (P : PoseidonParams) (input : ℕ → ℕ) :
    hash_n_to_m_no_pad P input = hashSpec P input := by
  rfl

end Def

namespace Def

/-- Condition check of the active `assert` in `operator+` (def.cuh:411):
whenever the double-overflow branch is reached, both operands do exceed
ORDER, so the assertion never fails and the abort path is unreachable. -/
theorem gf_add_assert_holds (a b : ℕ) (ha : a < U64) (hb : b < U64)
    (h : (overflowingAdd (overflowingAdd a b).1
      (if (overflowingAdd a b).2 then EPSILON else 0)).2 = true) :
    ORDER < a ∧ ORDER < b := by
  unfold overflowingAdd at h
  simp only [U64, EPSILON, ORDER, decide_eq_true_eq] at *
  split_ifs at h <;> omega

/-- Witness for `gf_add_assert_holds` at a = b = 2^64 - 1. -/
theorem gf_add_assert_holds_witness :
    ORDER < 18446744073709551615 ∧ ORDER < 18446744073709551615 :=
  gf_add_assert_holds 18446744073709551615 18446744073709551615
    (by decide) (by decide) (by decide)

/-- Condition check of the active `assert` in binary `operator-`
(def.cuh:430): whenever the double-borrow branch is reached, the left
operand is below EPSILON - 1 and the right exceeds ORDER, so the assertion
never fails and the abort path is unreachable. -/
theorem gf_sub_assert_holds (a b : ℕ) (ha : a < U64) (hb : b < U64)
    (h : (overflowingSub (overflowingSub a b).1
      (if (overflowingSub a b).2 then EPSILON else 0)).2 = true) :
    a < EPSILON - 1 ∧ ORDER < b := by
  unfold overflowingSub at h
  simp only [U64, EPSILON, ORDER, decide_eq_true_eq] at *
  split_ifs at h <;> omega

/-- Witness for `gf_sub_assert_holds` at a = 0, b = 2^64 - 1. -/
theorem gf_sub_assert_holds_witness :
    (0 : ℕ) < EPSILON - 1 ∧ ORDER < 18446744073709551615 :=
  gf_sub_assert_holds 0 18446744073709551615 (by decide) (by decide) (by decide)

end Def
